import Mathlib

/-
Verification of the rewarped differentiable-simulation step engine.

Shallow embedding of:
  - src/rewarped/autograd.py   (UpdateFunction.forward / backward)
  - src/rewarped/warp_env.py   (WarpEnv.do_physics_step)
  - src/rewarped/warp_mpm_sga/sim/materials.py (get_material / get_lame)

Tensors are modelled at the level the gradient post-processing policies act
on: each entry is a finite rational or one of the IEEE non-finite sentinels.
Buffer identities (for the reference-swap and tape-gradient bookkeeping) are
modelled as natural-number object ids or string names.
-/

namespace Rewarped

/-- Extended scalar value: a finite rational, or one of the IEEE non-finite
sentinels. Models a torch tensor entry exactly at the level that
torch.nan_to_num / torch.clamp act on (sentinel replacement, not rounding). -/
inductive EVal where
  | fin (q : ℚ)
  | posinf
  | neginf
  | nan
deriving DecidableEq, Repr

/-- torch.nan_to_num(x, nan=nanv, posinf=pinf, neginf=ninf): replaces NaN,
+inf and -inf entries with the given finite values; finite entries pass
through. -/
def nanToNum (nanv pinf ninf : ℚ) : EVal → EVal
  | .fin q => .fin q
  | .posinf => .fin pinf
  | .neginf => .fin ninf
  | .nan => .fin nanv

/-- torch.clamp(x, lo, hi) = min(max(x, lo), hi); +inf clamps to hi, -inf to
lo, NaN propagates. -/
def clampE (lo hi : ℚ) : EVal → EVal
  | .fin q => .fin (min hi (max lo q))
  | .posinf => .fin hi
  | .neginf => .fin lo
  | .nan => .nan

/-- Division of an adjoint entry by a rescale factor (adj_tensor /= rescale).
The factor, when enabled, is the positive substep count. -/
def divE (r : ℚ) : EVal → EVal
  | .fin q => .fin (q / r)
  | .posinf => if r < 0 then .neginf else .posinf
  | .neginf => if r < 0 then .posinf else .neginf
  | .nan => .nan

/-- The three gradient post-processing policies of UpdateFunction.backward. -/
structure GradConfig where
  rescale_grad : Option ℚ
  clip_grad : Option ℚ
  zero_nans : Bool
deriving DecidableEq, Repr

/-- The hard-coded policy values in UpdateFunction.backward
(autograd.py lines 176-178): rescale_grad = None, clip_grad = None,
zero_nans = False. -/
def backwardGradConfig : GradConfig := ⟨none, none, false⟩

/-- The per-element clamp policy applied when clip_grad = c is set
(autograd.py lines 244-246): torch.nan_to_num with nan=0.0,
posinf=-clip_grad, neginf=clip_grad, then torch.clamp to the range -c..c. -/
def clipAdjoint (c : ℚ) (v : EVal) : EVal := clampE (-c) c (nanToNum 0 (-c) c v)

/-- Post-processing of one adjoint tensor inside the collection loops of
UpdateFunction.backward (autograd.py lines 242-246, 253-257, 266-270):
optional rescale, then optional nan_to_num+clamp. -/
def postAdjoint (cfg : GradConfig) (t : List EVal) : List EVal :=
  match cfg.clip_grad with
  | some c =>
    (match cfg.rescale_grad with
     | some r => t.map (divE r)
     | none => t).map (clipAdjoint c)
  | none =>
    match cfg.rescale_grad with
    | some r => t.map (divE r)
    | none => t

/-- The zero-NaN policy applied to the whole adjoint-input list after the
tape is zeroed (autograd.py lines 287-288): torch.nan_to_num_(adj, 0, 0, 0)
on every tensor when zero_nans is set. -/
def zeroNans (cfg : GradConfig) (adjs : List (List EVal)) : List (List EVal) :=
  if cfg.zero_nans then adjs.map (fun t => t.map (nanToNum 0 0 0)) else adjs

/-- The tape's accumulated adjoints, keyed by declared buffer name: models
wp.Tape.gradients restricted to the declared input buffers. -/
abbrev Tape := List (String × List EVal)

/-- Lookup of tape.gradients[buffer]; a missing key raises KeyError in the
source, modelled as none here. -/
def Tape.lookup (tape : Tape) (n : String) : Option (List EVal) :=
  List.lookup n tape

/-- wp.Tape.zero(): zeroes every accumulated adjoint buffer in place;
buffer identities (keys) are preserved, contents become zero. -/
def Tape.zero (tape : Tape) : Tape :=
  tape.map (fun p => (p.1, p.2.map (fun _ => EVal.fin 0)))

/-- Gradient read loop of UpdateFunction.backward for one name list: for
each declared name in order, read tape.gradients (KeyError on a missing
key, modelled as .error carrying the offending name), clone the value and
apply the rescale/clip policy. -/
def readGrads (cfg : GradConfig) (tape : Tape) : List String → Except String (List (List EVal))
  | [] => .ok []
  | n :: ns =>
    match Tape.lookup tape n with
    | none => .error n
    | some g =>
      match readGrads cfg tape ns with
      | .error m => .error m
      | .ok rest => .ok (postAdjoint cfg g :: rest)

/-- The adjoint-collection try-block of UpdateFunction.backward
(autograd.py lines 235-278): state names, then model names, then control
names, each read from the tape's gradients; mesh point gradients are then
read directly from the mesh arrays (no tape lookup, no rescale/clip). -/
def collectAdjInputs (cfg : GradConfig) (tape : Tape)
    (stateNames modelNames controlNames : List String)
    (meshGrads : List (List EVal)) : Except String (List (List EVal)) :=
  match readGrads cfg tape stateNames with
  | .error n => .error n
  | .ok s =>
    match readGrads cfg tape modelNames with
    | .error n => .error n
    | .ok m =>
      match readGrads cfg tape controlNames with
      | .error n => .error n
      | .ok c => .ok (s ++ m ++ c ++ meshGrads)

/-- Result of the adjoint-extraction phase of UpdateFunction.backward:
either a propagated KeyError naming the buffer whose gradient is missing
(autograd.py lines 280-282), or the post-processed adjoint inputs. The
field tape holds the tape's adjoint storage after the call. -/
structure BackwardResult where
  missing : Option String
  adjInputs : List (List EVal)
  tape : Tape
deriving DecidableEq, Repr

/-- UpdateFunction.backward, adjoint-extraction phase (autograd.py lines
235-302): collect the per-input adjoints inside a try-block — a KeyError
(missing gradient) is printed with the offending name and re-raised, and in
that case tape.zero() is never reached, so the tape keeps its accumulated
adjoints; on success the tape is zeroed and the zero-NaN policy applied. -/
def backwardAdjoints (cfg : GradConfig) (tape : Tape)
    (stateNames modelNames controlNames : List String)
    (meshGrads : List (List EVal)) : BackwardResult :=
  match collectAdjInputs cfg tape stateNames modelNames controlNames meshGrads with
  | .error n => ⟨some n, [], tape⟩
  | .ok adjs => ⟨none, zeroNans cfg adjs, Tape.zero tape⟩

/-- The return tuple of UpdateFunction.backward (autograd.py lines
292-302): one None per non-tensor argument of forward (update_params,
sim_params, states, control, states_bwd, control_bwd and the three name
lists — nine in total), followed by the adjoint inputs. -/
def backwardReturns (adjInputs : List (List EVal)) : List (Option (List EVal)) :=
  List.replicate 9 none ++ adjInputs.map some

/-- Output construction of UpdateFunction.forward (autograd.py lines
133-152): one tensor per declared state name, then per model name, then per
control name (each read from state_out / model / control, cloned when graph
capture is on), then a clone of every mesh tensor. -/
def forwardOutputs (readState readModel readControl : String → List EVal)
    (stateNames modelNames controlNames : List String)
    (meshTensors : List (List EVal)) : List (List EVal) :=
  stateNames.map readState ++ modelNames.map readModel ++
    controlNames.map readControl ++ meshTensors

/-- The two captured-graph slots stored on the integrator
(warp_env.py lines 304-305, autograd.py lines 105, 111). Graphs are
identified by a natural-number id standing for the recorded operation
sequence. -/
structure IntegratorGraphs where
  update_graph : Option ℕ
  bwd_update_graph : Option ℕ
deriving DecidableEq, Repr

/-- A host-side invocation of the step node: a forward or a backward call. -/
inductive Call where
  | fwd
  | bwd
deriving DecidableEq, Repr

/-- Observable device events of a call in graph-capture mode: the one-time
capture of the forward / backward graph, a replay launch of a stored graph,
or a launch of a missing (None) graph. -/
inductive Ev where
  | captureFwd (g : ℕ)
  | captureBwd (g : ℕ)
  | replayFwd (g : ℕ)
  | replayBwd (g : ℕ)
  | launchNone
deriving DecidableEq, Repr

def Ev.isCapture : Ev → Bool
  | .captureFwd _ => true
  | .captureBwd _ => true
  | _ => false

def captureEvents (evs : List Ev) : List Ev := evs.filter Ev.isCapture

/-- One UpdateFunction call with use_graph_capture set, acting on the
integrator's graph slots. Forward (autograd.py lines 90-123): when
update_graph is None, capture the physics update under the tape as the
forward graph, then capture tape.backward() as the backward graph, then
launch the forward graph; otherwise only launch the stored forward graph.
Backward (lines 198-220): launch the stored backward graph. gf and gb are
the graphs the one-time capture records. -/
def procCall (gf gb : ℕ) (i : IntegratorGraphs) : Call → IntegratorGraphs × List Ev
  | .fwd =>
    match i.update_graph with
    | none => (⟨some gf, some gb⟩, [.captureFwd gf, .captureBwd gb, .replayFwd gf])
    | some g => (i, [.replayFwd g])
  | .bwd =>
    match i.bwd_update_graph with
    | some g => (i, [.replayBwd g])
    | none => (i, [.launchNone])

/-- Run a sequence of forward/backward calls against the integrator,
accumulating the emitted device events in order. -/
def runCalls (gf gb : ℕ) (i : IntegratorGraphs) : List Call → IntegratorGraphs × List Ev
  | [] => (i, [])
  | c :: cs =>
    ((runCalls gf gb (procCall gf gb i c).1 cs).1,
     (procCall gf gb i c).2 ++ (runCalls gf gb (procCall gf gb i c).1 cs).2)

/-- The event a ready integrator emits for a call: replay of the stored
forward graph on forward, replay of the stored backward graph on backward. -/
def replayEv (gf gb : ℕ) : Call → Ev
  | .fwd => .replayFwd gf
  | .bwd => .replayBwd gb

/-- Where the two-phase capture block stops: both captures complete, or the
physics update raises during the first capture, or tape.backward() raises
during the second capture. -/
inductive CaptureRun where
  | ok
  | failFwd
  | failBwd
deriving DecidableEq, Repr

/-- The one-time two-graph capture block of UpdateFunction.forward
(autograd.py lines 98-111). Each capture body runs inside a try whose
finally installs wp.capture_end()'s result on the integrator, so the
recorded (possibly partial) graph is installed even when the body raised.
gf/gb are the fully recorded graphs, pf/pb the partial recordings
capture_end returns when the body raised midway. The returned Bool is
whether an exception propagated out of the block (aborting the rest of
forward). -/
def captureBoth (gf gb pf pb : ℕ) (i : IntegratorGraphs) : CaptureRun → IntegratorGraphs × Bool
  | .ok => ({ i with update_graph := some gf, bwd_update_graph := some gb }, false)
  | .failFwd => ({ i with update_graph := some pf }, true)
  | .failBwd => ({ i with update_graph := some gf, bwd_update_graph := some pb }, true)

/-- Simulation state / step-record bookkeeping of WarpEnv.do_physics_step,
tracking buffer identities as object ids. -/
structure EnvBuffers where
  state_0 : ℕ
  state_1 : ℕ
  nextId : ℕ
  requires_grad : Bool
deriving DecidableEq, Repr

/-- The (state_in, state_out) buffer pair one physics step reads and
writes. -/
structure StepRecord where
  state_in : ℕ
  state_out : ℕ
deriving DecidableEq, Repr

/-- WarpEnv.do_physics_step's state hand-off (warp_env.py lines 406-409,
424, 456-459): with requires_grad a fresh state buffer is allocated for the
step's state_out, otherwise the persistent state_1 buffer is reused; the
step runs with state_in = self.state_0; afterwards the references are
reassigned — self.state_1 = self.state_0 and self.state_0 = state_1 (the
local state_out) — with no copy into a different buffer. -/
def doPhysicsStep (env : EnvBuffers) : EnvBuffers × StepRecord :=
  (⟨(if env.requires_grad then env.nextId else env.state_1), env.state_0,
    (if env.requires_grad then env.nextId + 1 else env.nextId), env.requires_grad⟩,
   ⟨env.state_0, (if env.requires_grad then env.nextId else env.state_1)⟩)

/-- Run n consecutive physics steps, collecting each step's
(state_in, state_out) record in order. -/
def runSteps : EnvBuffers → ℕ → EnvBuffers × List StepRecord
  | env, 0 => (env, [])
  | env, n + 1 =>
    ((runSteps (doPhysicsStep env).1 n).1,
     (doPhysicsStep env).2 :: (runSteps (doPhysicsStep env).1 n).2)

/-- A Python value as far as the forward-call binding is concerned: a name
list, a torch tensor, or any other (bookkeeping) object. -/
inductive PyVal where
  | names (ns : List String)
  | tensor (t : List EVal)
  | misc
deriving DecidableEq, Repr

/-- The parameters of UpdateFunction.forward after ctx (autograd.py lines
40-52): nine declared positional parameters, then the variadic *tensors. -/
structure ForwardBound where
  update_params : PyVal
  sim_params : PyVal
  states : PyVal
  control : PyVal
  states_bwd : PyVal
  control_bwd : PyVal
  state_tensors_names : PyVal
  model_tensors_names : PyVal
  control_tensors_names : PyVal
  tensors : List PyVal
deriving DecidableEq, Repr

/-- Python positional binding of an argument list against
UpdateFunction.forward's signature: the first nine arguments bind to the
nine declared parameters in order, the rest to *tensors; fewer than nine
arguments is a TypeError (none). -/
def bindForward : List PyVal → Option ForwardBound
  | a1 :: a2 :: a3 :: a4 :: a5 :: a6 :: a7 :: a8 :: a9 :: rest =>
    some ⟨a1, a2, a3, a4, a5, a6, a7, a8, a9, rest⟩
  | _ => none

/-- The positional argument list WarpEnv.do_physics_step builds for
UpdateFunction.apply (warp_env.py lines 429-439): six bookkeeping
arguments, the state name list, the control name list, then the input
tensors — no model name list is passed. -/
def doPhysicsStepArgs (stateNames controlNames : List String)
    (tensors : List (List EVal)) : List PyVal :=
  [.misc, .misc, .misc, .misc, .misc, .misc,
   .names stateNames, .names controlNames] ++ tensors.map .tensor

/-- The tensor splitting at the head of UpdateFunction.forward
(autograd.py lines 59-65): *tensors is sliced by the lengths of the three
declared name lists, with no check that the counts match — Python slicing
(and the zips downstream) silently truncate on a mismatch. -/
def splitTensors (numState numModel numControl : ℕ) (tensors : List (List EVal)) :
    List (List EVal) × List (List EVal) × List (List EVal) × List (List EVal) :=
  (tensors.take numState,
   (tensors.drop numState).take numModel,
   ((tensors.drop numState).drop numModel).take numControl,
   (((tensors.drop numState).drop numModel).drop numControl))

/-- The MATL_PLASTICINE material id constant (materials.py line 4). -/
def MATL_PLASTICINE : ℤ := 0

/-- The MATL_WATER material id constant (materials.py line 5). -/
def MATL_WATER : ℤ := 1

/-- The MPMMaterial struct (materials.py lines 8-16); fields other than the
id default to unset (None). -/
structure MPMMaterial where
  name : ℤ
  E : Option ℚ
  nu : Option ℚ
  yield_stress : Option ℚ
  mu : Option ℚ
  lam : Option ℚ
deriving DecidableEq, Repr

/-- A freshly constructed MPMMaterial() with all value fields unset. -/
def MPMMaterial.init : MPMMaterial := ⟨0, none, none, none, none, none⟩

/-- get_lame (materials.py lines 41-44): the Lamé parameters
mu = E / (2 (1 + nu)) and lam = E nu / ((1 + nu) (1 - 2 nu)). -/
def get_lame (E nu : ℚ) : ℚ × ℚ :=
  (E / (2 * (1 + nu)), E * nu / ((1 + nu) * (1 - 2 * nu)))

/-- get_material (materials.py lines 19-38): for 'plasticine' set the id,
E, nu, yield_stress and the Lamé parameters; for 'water' set the id, E, nu
and the Lamé parameters, leaving yield_stress unset; any other name raises
ValueError. -/
def get_material (name : String) (E nu : ℚ) (yield_stress : Option ℚ) :
    Except String MPMMaterial :=
  if name = "plasticine" then
    .ok { MPMMaterial.init with
          name := MATL_PLASTICINE, E := some E, nu := some nu,
          yield_stress := yield_stress,
          mu := some (get_lame E nu).1, lam := some (get_lame E nu).2 }
  else if name = "water" then
    .ok { MPMMaterial.init with
          name := MATL_WATER, E := some E, nu := some nu,
          mu := some (get_lame E nu).1, lam := some (get_lame E nu).2 }
  else
    .error "ValueError"

theorem readGrads_error_mem (cfg : GradConfig) (tape : Tape) :
    ∀ (ns : List String) (m : String), readGrads cfg tape ns = .error m →
      m ∈ ns ∧ Tape.lookup tape m = none := by
  intro ns
  induction ns with
  | nil => intro m h; exact absurd h (by simp [readGrads])
  | cons n ns ih =>
    intro m h
    rw [readGrads] at h
    cases hl : Tape.lookup tape n with
    | none =>
      rw [hl] at h
      injection h with h
      subst h
      exact ⟨List.mem_cons_self _ _, hl⟩
    | some g =>
      rw [hl] at h
      cases hr : readGrads cfg tape ns with
      | error m2 =>
        rw [hr] at h
        injection h with h
        subst h
        obtain ⟨h1, h2⟩ := ih m2 hr
        exact ⟨List.mem_cons_of_mem _ h1, h2⟩
      | ok rest =>
        rw [hr] at h
        exact absurd h (by simp)

theorem readGrads_missing (cfg : GradConfig) (tape : Tape) :
    ∀ (ns : List String) (n : String), n ∈ ns → Tape.lookup tape n = none →
      ∃ m, readGrads cfg tape ns = .error m := by
  intro ns
  induction ns with
  | nil => intro n hn _; exact absurd hn (by simp)
  | cons k ns ih =>
    intro n hn hmiss
    rw [readGrads]
    cases hl : Tape.lookup tape k with
    | none => exact ⟨k, rfl⟩
    | some g =>
      have hn' : n ∈ ns := by
        rcases List.mem_cons.mp hn with h | h
        · subst h; rw [hl] at hmiss; exact absurd hmiss (by simp)
        · exact h
      obtain ⟨m, hm⟩ := ih n hn' hmiss
      rw [hm]
      exact ⟨m, rfl⟩

theorem readGrads_ok_val (cfg : GradConfig) (tape : Tape) :
    ∀ (ns : List String) (l : List (List EVal)), readGrads cfg tape ns = .ok l →
      l = ns.filterMap (fun n => (Tape.lookup tape n).map (postAdjoint cfg)) := by
  intro ns
  induction ns with
  | nil => intro l h; rw [readGrads] at h; injection h with h; subst h; rfl
  | cons n ns ih =>
    intro l h
    rw [readGrads] at h
    cases hl : Tape.lookup tape n with
    | none => rw [hl] at h; exact absurd h (by simp)
    | some g =>
      rw [hl] at h
      cases hr : readGrads cfg tape ns with
      | error m => rw [hr] at h; exact absurd h (by simp)
      | ok rest =>
        rw [hr] at h
        injection h with h
        subst h
        simp [List.filterMap_cons, hl, ih rest hr]

theorem collectAdjInputs_missing (cfg : GradConfig) (tape : Tape)
    (sn mn cn : List String) (mesh : List (List EVal)) (n : String)
    (hmem : n ∈ sn ++ mn ++ cn) (hmiss : Tape.lookup tape n = none) :
    ∃ m, collectAdjInputs cfg tape sn mn cn mesh = .error m ∧
      m ∈ sn ++ mn ++ cn ∧ Tape.lookup tape m = none := by
  rw [collectAdjInputs]
  cases hs : readGrads cfg tape sn with
  | error m =>
    obtain ⟨h1, h2⟩ := readGrads_error_mem cfg tape sn m hs
    exact ⟨m, rfl, by simp [h1], h2⟩
  | ok s =>
    cases hm : readGrads cfg tape mn with
    | error m =>
      obtain ⟨h1, h2⟩ := readGrads_error_mem cfg tape mn m hm
      exact ⟨m, rfl, by simp [h1], h2⟩
    | ok mm =>
      cases hc : readGrads cfg tape cn with
      | error m =>
        obtain ⟨h1, h2⟩ := readGrads_error_mem cfg tape cn m hc
        exact ⟨m, rfl, by simp [h1], h2⟩
      | ok c =>
        exfalso
        simp only [List.mem_append] at hmem
        rcases hmem with (h | h) | h
        · obtain ⟨m, hmm⟩ := readGrads_missing cfg tape sn n h hmiss
          rw [hs] at hmm; exact absurd hmm (by simp)
        · obtain ⟨m, hmm⟩ := readGrads_missing cfg tape mn n h hmiss
          rw [hm] at hmm; exact absurd hmm (by simp)
        · obtain ⟨m, hmm⟩ := readGrads_missing cfg tape cn n h hmiss
          rw [hc] at hmm; exact absurd hmm (by simp)

theorem find?_append_char {α : Type} (p : α → Bool) (l₁ l₂ : List α) :
    (l₁ ++ l₂).find? p = match l₁.find? p with
      | some x => some x
      | none => l₂.find? p := by
  rw [List.find?_append]
  cases l₁.find? p <;> rfl

theorem readGrads_error_iff (cfg : GradConfig) (tape : Tape) :
    ∀ (ns : List String) (m : String),
      readGrads cfg tape ns = .error m ↔
        ns.find? (fun n => (Tape.lookup tape n).isNone) = some m := by
  intro ns
  induction ns with
  | nil => intro m; simp [readGrads]
  | cons n ns ih =>
    intro m
    cases hl : Tape.lookup tape n with
    | none =>
      rw [List.find?_cons_of_pos _ (by simp [hl])]
      simp only [readGrads, hl]
      simp
    | some g =>
      rw [List.find?_cons_of_neg _ (by simp [hl])]
      simp only [readGrads, hl]
      cases hr : readGrads cfg tape ns with
      | error m2 =>
        simp only [hr]
        rw [← ih m, hr]
      | ok rest =>
        simp only [hr]
        rw [← ih m, hr]
        simp

theorem readGrads_ok_find?_none (cfg : GradConfig) (tape : Tape)
    (ns : List String) (l : List (List EVal)) (h : readGrads cfg tape ns = .ok l) :
    ns.find? (fun n => (Tape.lookup tape n).isNone) = none := by
  cases hf : ns.find? (fun n => (Tape.lookup tape n).isNone) with
  | none => rfl
  | some m =>
    rw [(readGrads_error_iff cfg tape ns m).mpr hf] at h
    exact absurd h (by simp)

theorem backwardAdjoints_missing_eq (cfg : GradConfig) (tape : Tape)
    (sn mn cn : List String) (mesh : List (List EVal)) :
    (backwardAdjoints cfg tape sn mn cn mesh).missing =
      (sn ++ mn ++ cn).find? (fun n => (Tape.lookup tape n).isNone) := by
  rw [find?_append_char, find?_append_char]
  cases hs : readGrads cfg tape sn with
  | error m =>
    rw [(readGrads_error_iff cfg tape sn m).mp hs]
    simp [backwardAdjoints, collectAdjInputs, hs]
  | ok s =>
    rw [readGrads_ok_find?_none cfg tape sn s hs]
    cases hm : readGrads cfg tape mn with
    | error m =>
      rw [(readGrads_error_iff cfg tape mn m).mp hm]
      simp [backwardAdjoints, collectAdjInputs, hs, hm]
    | ok mm =>
      rw [readGrads_ok_find?_none cfg tape mn mm hm]
      cases hc : readGrads cfg tape cn with
      | error m =>
        rw [(readGrads_error_iff cfg tape cn m).mp hc]
        simp [backwardAdjoints, collectAdjInputs, hs, hm, hc]
      | ok c =>
        rw [readGrads_ok_find?_none cfg tape cn c hc]
        simp [backwardAdjoints, collectAdjInputs, hs, hm, hc]

theorem postAdjoint_default : postAdjoint backwardGradConfig = fun t => t :=
  funext fun _ => rfl

theorem zeroNans_default (adjs : List (List EVal)) :
    zeroNans backwardGradConfig adjs = adjs := rfl

theorem readGrads_ok_val_default (tape : Tape) (ns : List String)
    (l : List (List EVal)) (h : readGrads backwardGradConfig tape ns = .ok l) :
    l = ns.filterMap (Tape.lookup tape) := by
  have hv := readGrads_ok_val backwardGradConfig tape ns l h
  simpa [postAdjoint_default] using hv

end Rewarped

namespace Rewarped

/-- C2: backward surfaces the missing-gradient failure precisely when some
declared state/model/control input has no recorded gradient on the tape:
the propagated KeyError names exactly the first such buffer in the declared
scan order (state names, then model names, then control names) — so every
run in which any declared input lacks a contribution errors out with an
offending declared buffer's name and returns no adjoint inputs, and a run
with all contributions present raises nothing; a missing gradient is never
silently replaced by a zero adjoint. -/
theorem backward_missing_gradient_raises (cfg : GradConfig) (tape : Tape)
    (sn mn cn : List String) (mesh : List (List EVal)) :
    (backwardAdjoints cfg tape sn mn cn mesh).missing =
      (sn ++ mn ++ cn).find? (fun n => (Tape.lookup tape n).isNone) ∧
    (∀ n, n ∈ sn ++ mn ++ cn → Tape.lookup tape n = none →
      ∃ m, (backwardAdjoints cfg tape sn mn cn mesh).missing = some m ∧
        m ∈ sn ++ mn ++ cn ∧ Tape.lookup tape m = none ∧
        (backwardAdjoints cfg tape sn mn cn mesh).adjInputs = []) := by
  refine ⟨backwardAdjoints_missing_eq cfg tape sn mn cn mesh, ?_⟩
  intro n hmem hmiss
  obtain ⟨m, hc, h1, h2⟩ := collectAdjInputs_missing cfg tape sn mn cn mesh n hmem hmiss
  exact ⟨m, by simp [backwardAdjoints, hc], h1, h2, by simp [backwardAdjoints, hc]⟩

/-- Witness for C2: a declared control input the physics update never
touched has no tape gradient, and backward errors out naming it. -/
theorem backward_missing_gradient_raises_witness :
    ∃ m, (backwardAdjoints backwardGradConfig [("particle_q", [EVal.fin 1])]
        ["particle_q"] [] ["tet_activations"] []).missing = some m ∧
      m ∈ ["particle_q"] ++ [] ++ ["tet_activations"] ∧
      Tape.lookup [("particle_q", [EVal.fin 1])] m = none ∧
      (backwardAdjoints backwardGradConfig [("particle_q", [EVal.fin 1])]
        ["particle_q"] [] ["tet_activations"] []).adjInputs = [] :=
  (backward_missing_gradient_raises backwardGradConfig [("particle_q", [EVal.fin 1])]
      ["particle_q"] [] ["tet_activations"] []).2 "tet_activations"
    (by simp) (by rfl)

/-- C8: tape.zero() runs only on the success path of backward — when the
missing-gradient KeyError propagates, the tape keeps the adjoints that
backward pass accumulated; on success the tape is zeroed. -/
theorem tape_preserved_on_missing_gradient (cfg : GradConfig) (tape : Tape)
    (sn mn cn : List String) (mesh : List (List EVal)) :
    (∀ n, (backwardAdjoints cfg tape sn mn cn mesh).missing = some n →
      (backwardAdjoints cfg tape sn mn cn mesh).tape = tape) ∧
    ((backwardAdjoints cfg tape sn mn cn mesh).missing = none →
      (backwardAdjoints cfg tape sn mn cn mesh).tape = Tape.zero tape) := by
  cases h : collectAdjInputs cfg tape sn mn cn mesh <;>
    simp [backwardAdjoints, h]

/-- Witness for C8: after a missing-gradient failure the tape still holds
the accumulated (non-zero) adjoint for particle_q. -/
theorem tape_preserved_on_missing_gradient_witness :
    (backwardAdjoints backwardGradConfig [("particle_q", [EVal.fin 1])]
      ["particle_q", "joint_q"] [] [] []).tape = [("particle_q", [EVal.fin 1])] :=
  (tape_preserved_on_missing_gradient backwardGradConfig
    [("particle_q", [EVal.fin 1])] ["particle_q", "joint_q"] [] [] []).1 "joint_q" (by rfl)

/-- C7: with the hard-coded default policy configuration of backward
(rescale_grad = None, clip_grad = None, zero_nans = False), a successful
backward returns exactly the tape-accumulated gradients, unmodified, in
declared order, with the mesh adjoints appended — no division, clamping or
NaN replacement. -/
theorem default_backward_adjoints_unmodified (tape : Tape)
    (sn mn cn : List String) (mesh : List (List EVal))
    (h : (backwardAdjoints backwardGradConfig tape sn mn cn mesh).missing = none) :
    (backwardAdjoints backwardGradConfig tape sn mn cn mesh).adjInputs =
      sn.filterMap (Tape.lookup tape) ++ mn.filterMap (Tape.lookup tape) ++
        cn.filterMap (Tape.lookup tape) ++ mesh := by
  cases hc : collectAdjInputs backwardGradConfig tape sn mn cn mesh with
  | error n => simp [backwardAdjoints, hc] at h
  | ok adjs =>
    have hv : adjs = sn.filterMap (Tape.lookup tape) ++ mn.filterMap (Tape.lookup tape) ++
        cn.filterMap (Tape.lookup tape) ++ mesh := by
      rw [collectAdjInputs] at hc
      cases hs : readGrads backwardGradConfig tape sn with
      | error m => rw [hs] at hc; exact absurd hc (by simp)
      | ok s =>
        rw [hs] at hc
        cases hm : readGrads backwardGradConfig tape mn with
        | error m => rw [hm] at hc; exact absurd hc (by simp)
        | ok mm =>
          rw [hm] at hc
          cases hcc : readGrads backwardGradConfig tape cn with
          | error m => rw [hcc] at hc; exact absurd hc (by simp)
          | ok c =>
            rw [hcc] at hc
            injection hc with hc
            subst hc
            rw [readGrads_ok_val_default tape sn s hs,
              readGrads_ok_val_default tape mn mm hm,
              readGrads_ok_val_default tape cn c hcc]
    simp [backwardAdjoints, hc, zeroNans_default, hv]

/-- Witness for C7: a successful default-configuration backward hands back
the tape's gradient for the declared input and the mesh adjoint verbatim. -/
theorem default_backward_adjoints_unmodified_witness :
    (backwardAdjoints backwardGradConfig [("a", [EVal.fin 2])]
      ["a"] [] [] [[EVal.fin 5]]).adjInputs =
      (["a"] : List String).filterMap (Tape.lookup [("a", [EVal.fin 2])]) ++
        ([] : List String).filterMap (Tape.lookup [("a", [EVal.fin 2])]) ++
        ([] : List String).filterMap (Tape.lookup [("a", [EVal.fin 2])]) ++
        [[EVal.fin 5]] :=
  default_backward_adjoints_unmodified [("a", [EVal.fin 2])] ["a"] [] []
    [[EVal.fin 5]] (by rfl)

/-- C4 (code bug): the configured clamp policy replaces +inf with -c and
-inf with +c, because torch.nan_to_num is called with posinf = -clip_grad
and neginf = clip_grad (autograd.py line 245) — the sentinels are swapped
relative to the documented +inf ↦ c, -inf ↦ -c behavior; NaN does go to 0,
and the zero-NaN policy zeroes remaining non-finite entries. -/
theorem clip_policy_swaps_infinity_sentinels :
    clipAdjoint 1 EVal.posinf = EVal.fin (-1) ∧
    clipAdjoint 1 EVal.neginf = EVal.fin 1 ∧
    clipAdjoint 1 EVal.nan = EVal.fin 0 ∧
    postAdjoint ⟨none, some 1, false⟩ [EVal.posinf, EVal.neginf, EVal.nan] =
      [EVal.fin (-1), EVal.fin 1, EVal.fin 0] ∧
    zeroNans ⟨none, none, true⟩ [[EVal.nan, EVal.posinf, EVal.fin 3]] =
      [[EVal.fin 0, EVal.fin 0, EVal.fin 3]] := by
  decide

/-- C3 (code bug): when a capture fails partway, the finally blocks still
install wp.capture_end()'s result on the integrator: a physics-update
failure during the first capture leaves the partial forward graph stored
(and the backward slot empty), and a tape.backward() failure during the
second capture leaves both graphs stored — and a later forward (resp.
backward) call sees a non-None slot, skips capture and replays the partial
graph. -/
theorem capture_failure_installs_partial_graph :
    (captureBoth 10 11 7 8 ⟨none, none⟩ CaptureRun.failFwd).1 =
      { update_graph := some 7, bwd_update_graph := none } ∧
    (captureBoth 10 11 7 8 ⟨none, none⟩ CaptureRun.failFwd).2 = true ∧
    procCall 10 11 { update_graph := some 7, bwd_update_graph := none } Call.fwd =
      ({ update_graph := some 7, bwd_update_graph := none }, [Ev.replayFwd 7]) ∧
    (captureBoth 10 11 7 8 ⟨none, none⟩ CaptureRun.failBwd).1 =
      { update_graph := some 10, bwd_update_graph := some 8 } ∧
    procCall 10 11 { update_graph := some 10, bwd_update_graph := some 8 } Call.bwd =
      ({ update_graph := some 10, bwd_update_graph := some 8 }, [Ev.replayBwd 8]) := by
  decide

/-- C6 (code bug): WarpEnv.do_physics_step passes only two name lists for
the three name parameters of UpdateFunction.forward, so under Python
positional binding model_tensors_names receives the control name list,
control_tensors_names receives the first input tensor, and only the
remaining tensors land in *tensors; moreover forward itself never checks
that the declared name and tensor counts match — the slicing silently
truncates a mismatched tensor list instead of raising. -/
theorem do_physics_step_call_misaligned :
    bindForward (doPhysicsStepArgs ["particle_q", "particle_qd"] ["tet_activations"]
        [[EVal.fin 1], [EVal.fin 2], [EVal.fin 3]]) =
      some { update_params := .misc, sim_params := .misc, states := .misc,
             control := .misc, states_bwd := .misc, control_bwd := .misc,
             state_tensors_names := .names ["particle_q", "particle_qd"],
             model_tensors_names := .names ["tet_activations"],
             control_tensors_names := .tensor [EVal.fin 1],
             tensors := [.tensor [EVal.fin 2], .tensor [EVal.fin 3]] } ∧
    splitTensors 2 0 1 [[EVal.fin 1]] = ([[EVal.fin 1]], [], [], []) :=
  ⟨rfl, rfl⟩

/-- C10: get_material builds a plasticine material with id MATL_PLASTICINE,
the given E, nu and yield_stress and the Lamé parameters, a water material
with id MATL_WATER, E, nu and the Lamé parameters but yield_stress unset,
and raises ValueError for every other name. -/
theorem get_material_spec (name : String) (E nu : ℚ) (ys : Option ℚ) :
    (name ≠ "plasticine" → name ≠ "water" →
      get_material name E nu ys = .error "ValueError") ∧
    get_material "plasticine" E nu ys =
      .ok ⟨MATL_PLASTICINE, some E, some nu, ys,
           some (E / (2 * (1 + nu))), some (E * nu / ((1 + nu) * (1 - 2 * nu)))⟩ ∧
    get_material "water" E nu ys =
      .ok ⟨MATL_WATER, some E, some nu, none,
           some (E / (2 * (1 + nu))), some (E * nu / ((1 + nu) * (1 - 2 * nu)))⟩ := by
  refine ⟨fun h1 h2 => ?_, ?_, ?_⟩
  · rw [get_material, if_neg h1, if_neg h2]
  · rw [get_material, if_pos rfl]; rfl
  · rw [get_material, if_neg (by decide), if_pos rfl]; rfl

/-- Witness for C10: an unknown material name raises ValueError. -/
theorem get_material_spec_witness :
    get_material "clay" 3 (1 / 4) (some 2) = .error "ValueError" :=
  (get_material_spec "clay" 3 (1 / 4) (some 2)).1 (by decide) (by decide)

theorem take_map_append {α β : Type} (f : α → β) (l : List α) (rest : List β) :
    (l.map f ++ rest).take l.length = l.map f := by
  rw [show l.length = (l.map f).length from (List.length_map _ _).symm]
  exact List.take_left _ _

theorem drop_map_append {α β : Type} (f : α → β) (l : List α) (rest : List β) :
    (l.map f ++ rest).drop l.length = rest := by
  rw [show l.length = (l.map f).length from (List.length_map _ _).symm]
  exact List.drop_left _ _

theorem runCalls_ready (gf gb : ℕ) (cs : List Call) :
    runCalls gf gb ⟨some gf, some gb⟩ cs =
      (⟨some gf, some gb⟩, cs.map (replayEv gf gb)) := by
  induction cs with
  | nil => rfl
  | cons c cs ih => cases c <;> simp [runCalls, procCall, replayEv, ih]

theorem filter_capture_map_replay (gf gb : ℕ) (cs : List Call) :
    (cs.map (replayEv gf gb)).filter Ev.isCapture = [] := by
  induction cs with
  | nil => rfl
  | cons c cs ih => cases c <;> simpa [replayEv, Ev.isCapture] using ih

/-- C1: over any sequence of forward/backward calls in graph-capture mode
starting from an integrator with empty graph slots, capture happens at most
once — exactly two capture events, the forward graph first and the backward
graph second, both during the first forward call — and once the graphs are
stored every forward call only replays the stored forward graph and every
backward call only replays the stored backward graph, with the stored
graphs never changing. -/
theorem graph_capture_once_then_replay (gf gb : ℕ) (cs : List Call) :
    captureEvents (runCalls gf gb ⟨none, none⟩ cs).2 =
      (if Call.fwd ∈ cs then [Ev.captureFwd gf, Ev.captureBwd gb] else []) ∧
    runCalls gf gb ⟨none, none⟩ (Call.fwd :: cs) =
      (⟨some gf, some gb⟩,
       [Ev.captureFwd gf, Ev.captureBwd gb, Ev.replayFwd gf] ++
         cs.map (replayEv gf gb)) := by
  constructor
  · induction cs with
    | nil => rfl
    | cons c cs ih =>
      cases c
      · simp [runCalls, procCall, runCalls_ready, captureEvents, Ev.isCapture,
          filter_capture_map_replay]
      · simpa [runCalls, procCall, captureEvents, Ev.isCapture] using ih
  · simp [runCalls, procCall, runCalls_ready]

theorem runSteps_get_zero (env : EnvBuffers) (n : ℕ) (r : StepRecord)
    (h : ((runSteps env n).2)[0]? = some r) : r.state_in = env.state_0 := by
  cases n with
  | zero => simp [runSteps] at h
  | succ n =>
    simp [runSteps] at h
    rw [← h]
    rfl

/-- C5: over any number of consecutive physics steps, the state buffer used
as state_in by step N+1 is the very buffer produced as state_out by step N
— the hand-off is the reference reassignment of state_0/state_1 performed
at the end of do_physics_step, never a copy into a different buffer. -/
theorem state_handoff_reference_identical :
    ∀ (n : ℕ) (env : EnvBuffers) (i : ℕ) (r r' : StepRecord),
      ((runSteps env n).2)[i]? = some r →
      ((runSteps env n).2)[i + 1]? = some r' →
      r'.state_in = r.state_out := by
  intro n
  induction n with
  | zero => intro env i r r' h _; simp [runSteps] at h
  | succ n ih =>
    intro env i r r' h h'
    cases i with
    | zero =>
      simp [runSteps] at h h'
      rw [runSteps_get_zero (doPhysicsStep env).1 n r' h', ← h]
      rfl
    | succ i =>
      simp [runSteps] at h h'
      exact ih (doPhysicsStep env).1 i r r' h h'

/-- Witness for C5: three gradient-tracked steps from a concrete buffer
configuration — step 2 writes buffer 3 and step 3 reads it back as its
state_in. -/
theorem state_handoff_reference_identical_witness :
    ((runSteps ⟨0, 1, 2, true⟩ 3).2)[1]? = some ⟨2, 3⟩ ∧
    ((runSteps ⟨0, 1, 2, true⟩ 3).2)[2]? = some ⟨3, 4⟩ ∧
    (StepRecord.mk 3 4).state_in = (StepRecord.mk 2 3).state_out :=
  ⟨by decide, by decide,
   state_handoff_reference_identical 3 ⟨0, 1, 2, true⟩ 1 ⟨2, 3⟩ ⟨3, 4⟩
     (by decide) (by decide)⟩

/-- C9: forward returns its outputs in a fixed order determined by the name
lists — the first block is one tensor per state name, then one per model
name, then one per control name, then the mesh tensor clones — and
backward's return tuple is exactly nine None values (one per non-tensor
parameter of forward's signature, which binds nine named parameters before
*tensors) followed by the input adjoints in that same order. -/
theorem forward_backward_output_ordering
    (rs rm rc : String → List EVal) (sn mn cn : List String)
    (mesh : List (List EVal)) (adjs : List (List EVal)) :
    (forwardOutputs rs rm rc sn mn cn mesh).take sn.length = sn.map rs ∧
    ((forwardOutputs rs rm rc sn mn cn mesh).drop sn.length).take mn.length
      = mn.map rm ∧
    (((forwardOutputs rs rm rc sn mn cn mesh).drop sn.length).drop mn.length).take cn.length
      = cn.map rc ∧
    (((forwardOutputs rs rm rc sn mn cn mesh).drop sn.length).drop mn.length).drop cn.length
      = mesh ∧
    (backwardReturns adjs).take 9 = List.replicate 9 none ∧
    (backwardReturns adjs).drop 9 = adjs.map some ∧
    (∀ (args : List PyVal) (fb : ForwardBound), bindForward args = some fb →
      args.length = 9 + fb.tensors.length) := by
  refine ⟨?_, ?_, ?_, ?_, ?_, ?_, ?_⟩
  · rw [forwardOutputs, List.append_assoc, List.append_assoc, take_map_append]
  · rw [forwardOutputs, List.append_assoc, List.append_assoc, drop_map_append,
      take_map_append]
  · rw [forwardOutputs, List.append_assoc, List.append_assoc, drop_map_append,
      drop_map_append, take_map_append]
  · rw [forwardOutputs, List.append_assoc, List.append_assoc, drop_map_append,
      drop_map_append, drop_map_append]
  · exact List.take_left' (List.length_replicate _ _)
  · exact List.drop_left' (List.length_replicate _ _)
  · intro args fb h
    rcases args with _ | ⟨a1, _ | ⟨a2, _ | ⟨a3, _ | ⟨a4, _ | ⟨a5, _ | ⟨a6, _ |
      ⟨a7, _ | ⟨a8, _ | ⟨a9, rest⟩⟩⟩⟩⟩⟩⟩⟩⟩ <;>
      simp [bindForward] at h
    subst h
    simp [bindForward]
    omega

/-- Witness for C9: binding a concrete ten-element argument list against
forward's signature leaves exactly one tensor in *tensors, so the argument
count is nine plus the tensor count. -/
theorem forward_backward_output_ordering_witness :
    ([PyVal.misc, PyVal.misc, PyVal.misc, PyVal.misc, PyVal.misc, PyVal.misc,
      PyVal.misc, PyVal.misc, PyVal.misc, PyVal.tensor [EVal.fin 1]] : List PyVal).length =
      9 + [PyVal.tensor [EVal.fin 1]].length :=
  (forward_backward_output_ordering (fun _ => []) (fun _ => []) (fun _ => [])
      [] [] [] [] []).2.2.2.2.2.2
    [PyVal.misc, PyVal.misc, PyVal.misc, PyVal.misc, PyVal.misc, PyVal.misc,
      PyVal.misc, PyVal.misc, PyVal.misc, PyVal.tensor [EVal.fin 1]]
    ⟨.misc, .misc, .misc, .misc, .misc, .misc, .misc, .misc, .misc,
      [.tensor [EVal.fin 1]]⟩ (by rfl)

end Rewarped
